import Mathlib

/-!
Verification of the core decision/aggregation logic of the segmented
attenuator module (`pcdsdevices/attenuator.py`): direction selection,
aggregate done signal, energy source selection, derived transmission
properties, stage/restore recording, and the class factory.

Floats in the source are modelled as rationals; EPICS signal reads are
modelled as explicit values or streams; writes are modelled as event lists.
-/

namespace AttDoneSignal

/-- Model of `AttDoneSignal._calc_readback`: iterates over the cache of
`(signal, state)` pairs; a signal is represented by its `_unknown`
sentinel (the only attribute read).  Returns `0` at the first cached
state equal to its signal's unknown sentinel, else `1`. -/
def calc_readback : List (String × String) → Nat
  | [] => 1
  | (unk, st) :: rest => if st = unk then 0 else calc_readback rest

/-- State of an `AttDoneSignal`: the cache of per-filter states and the
computed value. -/
structure State where
  cache : List (String × String)
  value : Nat
deriving DecidableEq

/-- Model of `AttDoneSignal.put`: body is `pass` — ignores all positional and
keyword arguments, changes nothing, raises nothing. -/
def put (s : State) (args : List Rat) (kwargs : List (String × Rat)) :
    Except String State :=
  Except.ok s

end AttDoneSignal

namespace AttBase

/-- Time step of the `actuate_value` polling loop: `time.sleep(0.01)`. -/
def pollInterval : Rat := 1 / 100

/-- Hard timeout of the `actuate_value` polling loop: `timeout = 1`. -/
def pollTimeout : Rat := 1

/-- The `while self.calcpend.get() != 0` loop of `actuate_value`.
`calcpend k` is the value read at the `k`-th iteration; each iteration
costs one `pollInterval` of elapsed time, and the loop breaks when the
elapsed time exceeds `pollTimeout`.  Returns the number of iterations
performed. -/
def pollLoop (calcpend : Nat → Nat) (k : Nat) : Nat :=
  if calcpend k ≠ 0 then
    if (k : Rat) * pollInterval > pollTimeout then k
    else pollLoop calcpend (k + 1)
  else k
termination_by 101 - k
decreasing_by
  rename_i hk
  have h1 : (k : Rat) * pollInterval ≤ pollTimeout := not_lt.mp hk
  have h2 : (k : Rat) ≤ 100 := by
    rw [pollInterval, pollTimeout] at h1
    linarith
  have h3 : k ≤ 100 := by exact_mod_cast h2
  omega

/-- The direction decision at the end of `actuate_value`:
`2` if `abs (goal - ceil) < abs (goal - floor)`, else `3`. -/
def directionValue (goal ceil floor : Rat) : Nat :=
  if |goal - ceil| < |goal - floor| then 2 else 3

/-- Model of `AttBase.actuate_value`: runs the bounded poll of `calcpend`, then
reads setpoint/ceiling/floor and picks a direction.  Returns the number
of poll iterations together with the chosen command code. -/
def actuate_value (calcpend : Nat → Nat) (setpoint trans_ceil trans_floor : Rat) :
    Nat × Nat :=
  (pollLoop calcpend 0, directionValue setpoint trans_ceil trans_floor)

/-- A write issued by `set_energy`. -/
inductive WriteEvent
  | eget_cmd (value : Nat)
  | user_energy (value : Rat)
deriving DecidableEq

/-- Model of `AttBase.set_energy`: with no energy, `self.eget_cmd.put(6)`;
with an energy, `self.eget_cmd.put(0)` then `self.user_energy.put(energy)`. -/
def set_energy (energy : Option Rat) : List WriteEvent :=
  match energy with
  | none => [WriteEvent.eget_cmd 6]
  | some e => [WriteEvent.eget_cmd 0, WriteEvent.user_energy e]

/-- Model of `AttBase.transmission`: returns `self.position`. -/
def transmission (position : Rat) : Rat := position

/-- Model of `AttBase.inserted`: `self.position < 1`. -/
def inserted (position : Rat) : Bool := position < 1

/-- Model of `AttBase.removed`: `self.position == 1`. -/
def removed (position : Rat) : Bool := position = 1

end AttBase

/-- The constant `MAX_FILTERS = 12`. -/
def MAX_FILTERS : Nat := 12

/-- A class produced by `_make_att_classes`: its set of `filterN`
component attributes and its stored `num_att`. -/
structure AttClass where
  filterNames : List String
  num_att : Nat
deriving DecidableEq

/-- The filter attribute names `filter1 .. filteri` that
`_make_att_classes` installs on the class for count `i`
(`for n in range(1, i + 1): att_filters['filter' + n]`). -/
def attFilterNames (i : Nat) : List String :=
  (List.range i).map (fun n => "filter" ++ toString (n + 1))

/-- Model of `_make_att_classes(max_filters)`: the dict mapping each count
`i` in `1 .. max_filters` to a class with attributes
`filter1 .. filteri` and `num_att = i`, as an association list. -/
def _make_att_classes (max_filters : Nat) : List (Nat × AttClass) :=
  (List.range max_filters).map
    (fun j => (j + 1, AttClass.mk (attFilterNames (j + 1)) (j + 1)))

/-- The precomputed table `_att_classes = _make_att_classes(MAX_FILTERS)`. -/
def _att_classes : List (Nat × AttClass) := _make_att_classes MAX_FILTERS

/-- A constructed attenuator instance: the ordered `self.filters`
list built by `AttBase.__init__` and the class's `num_att`. -/
structure Controller where
  filters : List String
  num_att : Nat
deriving DecidableEq

/-- The filter-collection loop of `AttBase.__init__`:
`for i in range(1, MAX_FILTERS + 1)` probes `filter{i}` and appends it,
breaking at the first missing attribute.  `i` is the next index to
probe and `remaining` the iterations left. -/
def gatherFilters (cls : AttClass) (i : Nat) : Nat → List String
  | 0 => []
  | remaining + 1 =>
    let nm := "filter" ++ toString i
    if nm ∈ cls.filterNames then nm :: gatherFilters cls (i + 1) remaining
    else []

/-- Instantiating an attenuator class: `AttBase.__init__` collects the
filters; `num_att` is the class attribute stored by the factory. -/
def instantiate (cls : AttClass) : Controller :=
  Controller.mk (gatherFilters cls 1 MAX_FILTERS) cls.num_att

/-- Model of the factory `Attenuator(prefix, n_filters, name=name)`: looks `n_filters` up in
`_att_classes` (a missing key raises `KeyError`, modelled as `none`) and
instantiates the class found. -/
def Attenuator (n_filters : Nat) : Option Controller :=
  (_att_classes.lookup n_filters).map instantiate

/-- Claim C1. Direction selection: the code returned by the decision step of
`actuate_value` is `2` (ceiling) exactly when `|setpoint − trans_ceil| <
|setpoint − trans_floor|` and `3` (floor) in every other case including
ties; the three concrete examples behave as stated. -/
theorem directionValue_spec (goal ceil floor : Rat) :
    (AttBase.directionValue goal ceil floor = 2 ↔ |goal - ceil| < |goal - floor|) ∧
    (AttBase.directionValue goal ceil floor = 3 ↔ ¬ |goal - ceil| < |goal - floor|) ∧
    AttBase.directionValue (1/2) (9/10) (1/10) = 3 ∧
    AttBase.directionValue (1/2) (9/10) (3/10) = 3 ∧
    AttBase.directionValue (11/20) (6/10) (1/10) = 2 := by
  refine ⟨?_, ?_, ?_, ?_, ?_⟩
  · unfold AttBase.directionValue
    split <;> simp_all
  · unfold AttBase.directionValue
    split <;> simp_all
  · simp only [AttBase.directionValue]
    rw [abs_of_nonpos (by norm_num), abs_of_nonneg (by norm_num)]
    norm_num
  · simp only [AttBase.directionValue]
    rw [abs_of_nonpos (by norm_num), abs_of_nonneg (by norm_num)]
    norm_num
  · simp only [AttBase.directionValue]
    rw [abs_of_nonpos (by norm_num), abs_of_nonneg (by norm_num)]
    norm_num

/-- Claim C2. Aggregate done signal: the recomputed value is `1` iff no
cached filter state equals its filter's unknown sentinel, and `0`
otherwise, for every cache contents. -/
theorem calc_readback_spec (cache : List (String × String)) :
    (AttDoneSignal.calc_readback cache = 1 ↔ ∀ p ∈ cache, p.2 ≠ p.1) ∧
    (AttDoneSignal.calc_readback cache = 0 ↔ ∃ p ∈ cache, p.2 = p.1) := by
  induction cache with
  | nil => simp [AttDoneSignal.calc_readback]
  | cons hd tl ih =>
    obtain ⟨ih1, ih0⟩ := ih
    constructor
    · rw [AttDoneSignal.calc_readback]
      split <;> simp_all
    · rw [AttDoneSignal.calc_readback]
      split <;> simp_all

/-- Claim C10. On an empty cache (no filter state observed yet) the
recompute returns `1`: the all-done condition is vacuously true. -/
theorem calc_readback_empty : AttDoneSignal.calc_readback [] = 1 := rfl

/-- Claim C7. `inserted` holds iff the resolved transmission is strictly
below `1`; `removed` holds iff it is exactly `1`. -/
theorem inserted_removed_spec (position : Rat) :
    (AttBase.inserted position = true ↔ AttBase.transmission position < 1) ∧
    (AttBase.removed position = true ↔ AttBase.transmission position = 1) := by
  constructor
  · simp [AttBase.inserted, AttBase.transmission]
  · simp [AttBase.removed, AttBase.transmission]

/-- Claim C8. `AttDoneSignal.put` is a no-op for every argument list: it
returns the state unchanged (cache and value intact) and raises no
error. -/
theorem put_noop (s : AttDoneSignal.State) (args : List Rat)
    (kwargs : List (String × Rat)) :
    AttDoneSignal.put s args kwargs = Except.ok s ∧
    ∀ t, AttDoneSignal.put s args kwargs = Except.ok t →
      t.cache = s.cache ∧ t.value = s.value := by
  refine ⟨rfl, ?_⟩
  intro t ht
  cases ht
  exact ⟨rfl, rfl⟩

/-- Claim C9. `set_energy` with no argument writes only `6` to the energy
source command signal; with an explicit energy it writes `0` to the
energy source command signal and then the energy to the user-energy
signal. -/
theorem set_energy_spec :
    AttBase.set_energy none = [AttBase.WriteEvent.eget_cmd 6] ∧
    ∀ e : Rat, AttBase.set_energy (some e) =
      [AttBase.WriteEvent.eget_cmd 0, AttBase.WriteEvent.user_energy e] := by
  exact ⟨rfl, fun _ => rfl⟩

/-- Helper: a list lookup misses when no key matches. -/
theorem lookup_eq_none_of_keys (L : List (Nat × AttClass)) (n : Nat)
    (h : ∀ p ∈ L, p.1 ≠ n) : L.lookup n = none := by
  induction L with
  | nil => rfl
  | cons hd tl ih =>
    obtain ⟨k, v⟩ := hd
    have h1 : k ≠ n := h (k, v) (by simp)
    simp only [List.lookup]
    rw [beq_eq_false_iff_ne.mpr (fun e => h1 e.symm)]
    exact ih (fun p hp => h p (by simp [hp]))

/-- Helper: the poll loop never runs past iteration 101, the first
index whose elapsed time exceeds the timeout. -/
theorem pollLoop_le (p : Nat → Nat) (k : Nat) (hk : k ≤ 101) :
    AttBase.pollLoop p k ≤ 101 := by
  revert hk
  refine AttBase.pollLoop.induct p
    (fun n => n ≤ 101 → AttBase.pollLoop p n ≤ 101) ?_ ?_ ?_ k
  · intro x h1 h2 hx
    rw [AttBase.pollLoop, if_pos h1, if_pos h2]
    exact hx
  · intro x h1 h2 ih hx
    rw [AttBase.pollLoop, if_pos h1, if_neg h2]
    apply ih
    have h3 : (x : Rat) * AttBase.pollInterval ≤ AttBase.pollTimeout := not_lt.mp h2
    have h4 : (x : Rat) ≤ 100 := by
      rw [AttBase.pollInterval, AttBase.pollTimeout] at h3
      linarith
    have h5 : x ≤ 100 := by exact_mod_cast h4
    omega
  · intro x h1 hx
    rw [AttBase.pollLoop, if_neg h1]
    exact hx

/-- Claim C4. Factory exactness: for every count `n` in `[1, 12]` the
factory yields a controller whose gathered filters list is exactly
`filter1 .. filtern` (pairwise distinct), has length `n`, and whose
`num_att` equals that length. -/
theorem Attenuator_exact (n : Nat) (hn : n ∈ Finset.Icc 1 12) :
    Attenuator n = some (Controller.mk (attFilterNames n) n) ∧
    (attFilterNames n).length = n ∧
    (attFilterNames n).Nodup := by
  have H : ∀ m ∈ Finset.Icc 1 12,
      Attenuator m = some (Controller.mk (attFilterNames m) m) ∧
      (attFilterNames m).length = m ∧
      (attFilterNames m).Nodup := by decide
  exact H n hn

/-- Witness for C4 at `n = 5`. -/
theorem Attenuator_exact_witness :
    Attenuator 5 = some (Controller.mk (attFilterNames 5) 5) ∧
    (attFilterNames 5).length = 5 ∧
    (attFilterNames 5).Nodup :=
  Attenuator_exact 5 (by decide)

/-- Claim C5. Factory failure: for every requested count outside
`[1, 12]` the lookup in `_att_classes` fails (Python raises `KeyError`)
and no controller is produced. -/
theorem Attenuator_outside_fails (n : Nat) (hn : ¬(1 ≤ n ∧ n ≤ 12)) :
    Attenuator n = none := by
  rw [Attenuator, lookup_eq_none_of_keys]
  · rfl
  · intro p hp
    simp only [_att_classes, _make_att_classes, MAX_FILTERS, List.mem_map,
      List.mem_range] at hp
    obtain ⟨j, hj, rfl⟩ := hp
    simp only []
    omega

/-- Witness for C5 at `n = 0` and `n = 13`. -/
theorem Attenuator_outside_fails_witness :
    Attenuator 0 = none ∧ Attenuator 13 = none :=
  ⟨Attenuator_outside_fails 0 (by decide), Attenuator_outside_fails 13 (by decide)⟩

/-- Claim C6. Bounded wait: whatever the `calcpend` stream (even one
that never clears), `actuate_value` performs at most 101 poll
iterations — elapsed sleep time at most the 1 s timeout plus one 10 ms
interval — and then returns a direction code (2 or 3) rather than
raising. -/
theorem actuate_value_bounded (calcpend : Nat → Nat)
    (setpoint trans_ceil trans_floor : Rat) :
    (AttBase.actuate_value calcpend setpoint trans_ceil trans_floor).1 ≤ 101 ∧
    ((AttBase.actuate_value calcpend setpoint trans_ceil trans_floor).1 : Rat) *
      AttBase.pollInterval ≤ AttBase.pollTimeout + AttBase.pollInterval ∧
    ((AttBase.actuate_value calcpend setpoint trans_ceil trans_floor).2 = 2 ∨
     (AttBase.actuate_value calcpend setpoint trans_ceil trans_floor).2 = 3) := by
  have h1 : AttBase.pollLoop calcpend 0 ≤ 101 := pollLoop_le calcpend 0 (by omega)
  refine ⟨h1, ?_, ?_⟩
  · have h2 : ((AttBase.pollLoop calcpend 0 : Nat) : Rat) ≤ 101 := by exact_mod_cast h1
    rw [AttBase.actuate_value, AttBase.pollInterval, AttBase.pollTimeout]
    simp only []
    nlinarith
  · rw [AttBase.actuate_value]
    simp only [AttBase.directionValue]
    split
    · exact Or.inl rfl
    · exact Or.inr rfl

/-- Modelled from the spec: the class `Filter` extends `InOutPositioner`
(module `.inout`, not part of the sources here).  Per the spec a
filter's reported position is always one of its declared states and the
state signal carries that reported state, so `position` stands for both
`filt.position` and `filt.state.value` as read by `AttBase.stage`;
`invalid_states` and `out_states` are the declared invalid and out
state lists (e.g. `FAIL` and `OUT`).  Named `AttFilter` because `Filter`
is taken by Mathlib. -/
structure AttFilter where
  position : String
  invalid_states : List String
  out_states : List String
deriving DecidableEq

/-- An action performed by `AttBase.stage`: recording a restore target
for the filter at an index in `self._original_vals`, or the final
delegation `super().stage()`. -/
inductive StageEvent
  | record (index : Nat) (target : String)
  | superStage
deriving DecidableEq

/-- The per-filter branch of `AttBase.stage`: if the position is one of
the declared invalid states, the recorded target is
`filt.out_states[0]`, else the literal current state value. -/
def stageRecord (filt : AttFilter) : String :=
  if filt.position ∈ filt.invalid_states then filt.out_states.headI
  else filt.position

/-- Model of `AttBase.stage`: records a restore target for each filter
in order, then calls `super().stage()`. -/
def stage (filters : List AttFilter) : List StageEvent :=
  (filters.enum.map (fun p => StageEvent.record p.1 (stageRecord p.2))) ++
    [StageEvent.superStage]

/-- Claim C3. Stage protocol: every filter's restore target is recorded
(at its own index, hence before the `super().stage()` event, which sits
at index `length filters`); the target is the first declared out-state
when the current position is invalid and the literal current state
value otherwise; and — given that the first out-state is not an invalid
state — a declared-invalid state is never recorded. -/
theorem stage_spec (filters : List AttFilter)
    (h : ∀ f ∈ filters, f.out_states.headI ∉ f.invalid_states) :
    (∀ i f, filters.get? i = some f →
      (stage filters).get? i = some (StageEvent.record i (stageRecord f)) ∧
      (f.position ∈ f.invalid_states → stageRecord f = f.out_states.headI) ∧
      (f.position ∉ f.invalid_states → stageRecord f = f.position) ∧
      stageRecord f ∉ f.invalid_states) ∧
    (stage filters).get? filters.length = some StageEvent.superStage := by
  constructor
  · intro i f hf
    have hi : i < filters.length := by
      by_contra hge
      rw [List.get?_eq_none.mpr (le_of_not_lt hge)] at hf
      exact Option.noConfusion hf
    have hmem : f ∈ filters := List.get?_mem hf
    refine ⟨?_, ?_, ?_, ?_⟩
    · rw [stage, List.get?_append (by simpa using hi), List.get?_map,
        List.get?_enum, hf]
      rfl
    · intro hpos
      rw [stageRecord, if_pos hpos]
    · intro hpos
      rw [stageRecord, if_neg hpos]
    · rw [stageRecord]
      split
      · exact h f hmem
      · assumption
  · rw [stage, List.get?_append_right (by simp)]
    simp

/-- Witness for C3 on a two-filter attenuator whose first blade starts
in `FAIL`. -/
theorem stage_spec_witness :
    (stage [AttFilter.mk "FAIL" ["FAIL"] ["OUT", "IN"],
            AttFilter.mk "IN" ["FAIL"] ["OUT", "IN"]]).get? 2 =
      some StageEvent.superStage ∧
    stageRecord (AttFilter.mk "FAIL" ["FAIL"] ["OUT", "IN"]) ∉
      (["FAIL"] : List String) := by
  have H := stage_spec [AttFilter.mk "FAIL" ["FAIL"] ["OUT", "IN"],
      AttFilter.mk "IN" ["FAIL"] ["OUT", "IN"]] (by decide)
  exact ⟨H.2, (H.1 0 (AttFilter.mk "FAIL" ["FAIL"] ["OUT", "IN"]) rfl).2.2.2⟩
